import Mathlib

/-!
Shallow embedding of the command scheduling and dispatch engine of
`mci.py` (MiLight Control Interface).

Modelling choices:
* Timestamps (`time.time()` values, pauses, periods) are rationals `ℚ`;
  the source only adds, subtracts, divides and compares them.
* Byte strings (`bytes`) are `List Nat`.
* Time is a logical clock threaded through the worker: a `sendto` is an
  instantaneous event `(time, bytes)`, `time.sleep(d)` advances the clock
  by `d`.
* A Python function that can raise is embedded with an explicit result
  sum; `send_commands` never raises in the source, which the embedding
  makes visible by never producing the error variant.
-/

namespace MCI

/-- Tuple `(cmdtime, command, group)` that `send_commands` puts on the
priority queue (mci.py lines 153 and 155). -/
structure Entry where
  time : ℚ
  payload : List Nat
  group : Option String
deriving DecidableEq, Repr

/-- The dict `ColorGroup.GROUP_ON` (mci.py lines 189-195); a lookup of a
missing key is a `KeyError`, hence `Option`. -/
def ColorGroup_GROUP_ON : String → Option (List Nat)
  | "ALL" => some [66]
  | "1" => some [69]
  | "2" => some [71]
  | "3" => some [73]
  | "4" => some [75]
  | _ => none

/-- The dict `ColorGroup.GROUP_OFF` (mci.py lines 196-202). -/
def ColorGroup_GROUP_OFF : String → Option (List Nat)
  | "ALL" => some [65]
  | "1" => some [70]
  | "2" => some [72]
  | "3" => some [74]
  | "4" => some [76]
  | _ => none

/-- The dict `WhiteGroup.GROUP_ON` (mci.py lines 341-347). -/
def WhiteGroup_GROUP_ON : String → Option (List Nat)
  | "ALL" => some [53]
  | "1" => some [56]
  | "2" => some [61]
  | "3" => some [55]
  | "4" => some [50]
  | _ => none

/-- The dict `WhiteGroup.GROUP_OFF` (mci.py lines 348-354). -/
def WhiteGroup_GROUP_OFF : String → Option (List Nat)
  | "ALL" => some [57]
  | "1" => some [59]
  | "2" => some [51]
  | "3" => some [58]
  | "4" => some [54]
  | _ => none

/-- The pause normalisation in `Group.___init___` (mci.py lines 79-81):
`if pause <= 0: pause = 0.1`. -/
def initPause (pause : ℚ) : ℚ :=
  if pause ≤ 0 then 1/10 else pause

/-- The group normalisation in `Group.___init___` (mci.py lines 82-85):
`if str(group) in ['1','2','3','4']: self.group = str(group) else: 'ALL'`.
The argument is modelled by its `str()` image (`None` becomes `"None"`). -/
def initGroup (group : String) : String :=
  if group ∈ ["1", "2", "3", "4"] then group else "ALL"

/-- Instance attributes set by `Group.___init___` (mci.py lines 75-85). -/
structure GroupInst where
  ip_address : String
  port : Nat
  pause : ℚ
  group : String
deriving DecidableEq, Repr

/-- Constructor body of `Group.___init___` as run by `ColorGroup.__init__`
and `WhiteGroup.__init__` (mci.py lines 258-260 and 388-390), minus the
worker-thread start. -/
def Group_init (ip_address : String) (port : Nat) (pause : ℚ) (group : String) :
    GroupInst :=
  { ip_address := ip_address, port := port,
    pause := initPause pause, group := initGroup group }

/-! Pacing resolution, `Group.send_commands` lines 141-146. -/

/-- Resolution of the `pause` local before the interleave floor
(mci.py lines 141-144): if neither `pause` nor `period` is given use
`self.pause`; else if `period` is given use `period / steps` (`steps`
already clamped); else keep the explicit `pause`. -/
def resolvePauseBase (selfPause : ℚ) (stepsC : Int)
    (pause period : Option ℚ) : ℚ :=
  match pause, period with
  | none, none => selfPause
  | _, some per => per / (stepsC : ℚ)
  | some pa, none => pa

/-- Full pacing resolution including the interleave floor (mci.py lines
141-146): `if interleave and (pause < 2*(self.pause)): pause = 2*(self.pause)`. -/
def resolvePause (selfPause : ℚ) (stepsC : Int)
    (pause period : Option ℚ) (interleave : Bool) : ℚ :=
  let p := resolvePauseBase selfPause stepsC pause period
  if interleave ∧ p < 2 * selfPause then 2 * selfPause else p

/-- One iteration family of the `for i in range(0, steps)` loop of
`send_commands` (mci.py lines 151-156): argument `i` is the loop index,
`rem` the iterations left, `t` the running `cmdtime`. Each iteration
enqueues `(cmdtime - self.pause, command, self.group)` when
`interleave or i == 0`, else `(cmdtime, command, None)`, then does
`cmdtime = cmdtime + pause`. -/
def enqueueLoop (selfPause pauseR : ℚ) (grp : String) (cmd : List Nat)
    (interleave : Bool) : Nat → Nat → ℚ → List Entry
  | _, 0, _ => []
  | i, rem + 1, t =>
      (if interleave ∨ i = 0 then Entry.mk (t - selfPause) cmd (some grp)
       else Entry.mk t cmd none)
        :: enqueueLoop selfPause pauseR grp cmd interleave (i + 1) rem (t + pauseR)

/-- Result of a `send_commands` call: `noop` is the bare `return` taken
when `command is None` (mci.py lines 135-136), `sent` carries the entries
put on the queue in order and the returned (extended) command bytes.
The `error` variant is the embedding's channel for a raised exception;
the source function contains no `raise`, so it is never produced. -/
inductive SendResult where
  | noop : SendResult
  | sent : List Entry → List Nat → SendResult
  | error : String → SendResult
deriving DecidableEq, Repr

/-- True only on the exception variant. -/
def SendResult.raisesError : SendResult → Bool
  | .error _ => true
  | _ => false

/-- Entries a `send_commands` call put on the queue. -/
def SendResult.enqueued : SendResult → List Entry
  | .sent es _ => es
  | _ => []

/-- Embedding of `Group.send_commands` (mci.py lines 126-159).
`selfPause` and `selfGroup` are the instance attributes `self.pause`
and `self.group`; `now` is the value `time.time()` would return at the
call. The `self.finished` write and the trailing `queue.join()` do not
affect the queue contents and are modelled at the state layer below. -/
def send_commands (selfPause : ℚ) (selfGroup : String) (now : ℚ)
    (command : Option (List Nat)) (steps : Int) (period : Option ℚ)
    (pause : Option ℚ) (whenArg : Option ℚ) (interleave : Bool)
    (byte2 : List Nat) (byte3 : List Nat) : SendResult :=
  match command with
  | none => .noop
  | some cmd0 =>
      let stepsC : Int := max 1 (min 30 steps)
      let cmd := cmd0 ++ byte2 ++ byte3
      let pauseR := resolvePause selfPause stepsC pause period interleave
      let cmdtime := whenArg.getD now
      .sent (enqueueLoop selfPause pauseR selfGroup cmd interleave 0 stepsC.toNat cmdtime) cmd

/-! Worker loop body, `Group.qworker` (mci.py lines 91-115). -/

/-- Worker-visible clock state: `now` is the logical current time and
`last_command_time` the attribute read and written on lines 100 and 109. -/
structure WorkerState where
  now : ℚ
  last_command_time : ℚ
deriving DecidableEq, Repr

/-- Outcome of processing one dequeued tuple: the transmissions
(`sock.sendto` events as time-payload pairs, in order) and the clock
state afterwards. -/
structure StepResult where
  sends : List (ℚ × List Nat)
  state : WorkerState
deriving DecidableEq, Repr

/-- Body of the `qworker` loop for one dequeued tuple
`(cmdtime, command, group)` (mci.py lines 94-112):
resolve a `None` cmdtime to now (lines 96-97); compute
`pause_remaining = max(cmdtime - now, self.pause - (now - last_command_time))`
and sleep it if positive (lines 99-102); if `group` is not `None`, send
`GROUP_ON[group] + b"\x00" + b"\x55"` and sleep `self.pause` (lines
105-108; the dict lookup raises `KeyError` for an unknown key, modelled
as `none`); set `last_command_time` and send `command` (lines 109-110).
`qworkerWake` is the pacing part, lines 99-102: the current time once
`pause_remaining = max(cmdtime - now, self.pause - (now - last_command_time))`
has been slept, when positive. -/
def qworkerWake (selfPause : ℚ) (st : WorkerState) (cmdtime : ℚ) : ℚ :=
  let pause_remaining :=
    max (cmdtime - st.now) (selfPause - (st.now - st.last_command_time))
  if 0 < pause_remaining then st.now + pause_remaining else st.now

/-- Remainder of the `qworker` loop body: group reselect and payload
transmission (mci.py lines 104-110), producing the send events and the
updated clock. -/
def qworkerStep (selfPause : ℚ) (groupOn : String → Option (List Nat))
    (st : WorkerState) (cmdtimeOpt : Option ℚ) (command : List Nat)
    (group : Option String) : Option StepResult :=
  let cmdtime := cmdtimeOpt.getD st.now
  let t1 := qworkerWake selfPause st cmdtime
  match group with
  | some g =>
      match groupOn g with
      | none => none
      | some onbytes =>
          let t2 := t1 + selfPause
          some { sends := [(t1, onbytes ++ [0, 85]), (t2, command)],
                 state := { now := t2, last_command_time := t2 } }
  | none =>
      some { sends := [(t1, command)],
             state := { now := t1, last_command_time := t1 } }

/-! Queue flushing, `Group.empty_queue` (mci.py lines 117-124). -/

/-- The `while not self.queue.empty(): self.queue.get(); self.queue.task_done()`
loop (mci.py lines 122-124): returns the queue left behind and how many
`task_done` calls were made. -/
def emptyLoop : List Entry → List Entry × Nat
  | [] => ([], 0)
  | _ :: rest =>
      let r := emptyLoop rest
      (r.1, r.2 + 1)

/-- Embedding of `Group.empty_queue` (mci.py lines 117-124): sleep until
`when` if it lies in the future, then drain the queue without sending
anything. Returns the time on return, the remaining queue and the number
of entries marked done; no transmission event is ever produced. -/
def empty_queue (now : ℚ) (whenArg : Option ℚ) (queue : List Entry) :
    ℚ × List Entry × Nat :=
  let t := match whenArg with
    | some w => if now < w then w else now
    | none => now
  let r := emptyLoop queue
  (t, r.1, r.2)

/-! Priority-queue element comparison. `queue.PriorityQueue` orders the
tuples `(cmdtime, command, group)` by Python tuple comparison. -/

/-- Python comparison of two `bytes` values: lexicographic on the byte
sequences. Total. -/
def pyCompareBytes : List Nat → List Nat → Ordering
  | [], [] => .eq
  | [], _ :: _ => .lt
  | _ :: _, [] => .gt
  | a :: as, b :: bs =>
      if a < b then .lt else if b < a then .gt else pyCompareBytes as bs

/-- Python comparison of the third tuple component, which is either a
`str` group tag or `None`: `None == None` holds, two strings compare
lexicographically, but `str < NoneType` (either way round) raises
`TypeError` — modelled as `none`. -/
def pyCompareTag : Option String → Option String → Option Ordering
  | none, none => some .eq
  | some a, some b => some (compare a b)
  | some _, none => none
  | none, some _ => none

/-- Python tuple comparison of two queue entries `(cmdtime, command, group)`:
elementwise, moving right only past equal components; the result is
`none` when the comparison raises. -/
def pyCompareEntry (e1 e2 : Entry) : Option Ordering :=
  if e1.time < e2.time then some .lt
  else if e2.time < e1.time then some .gt
  else if e1.payload = e2.payload then pyCompareTag e1.group e2.group
  else some (pyCompareBytes e1.payload e2.payload)

/-! Class-level scheduler state. In mci.py lines 50-73, `_queue`,
`_qprocess`, `_last_command_time` and `_finished` are attributes of the
class `Group` itself: every instance's `self._queue` resolves to the one
class attribute, since no instance ever assigns `_queue`. -/

/-- The class attributes of `Group` (mci.py lines 50-73), holding their
class-creation values. The pending entries are kept as a list in
insertion order; the heap ordering is `pyCompareEntry` above. Note the
property setters `set_last_time` and `set_finished` execute
`self._last_command_time = val` and `self._finished = val`: those are
instance-attribute writes, so the class attributes themselves are never
reassigned after class creation — only `_queue`, which no instance ever
shadows, is read-shared and mutated in place through `put`/`get`. -/
structure GroupStatic where
  queue : List Entry
  last_command_time : ℚ
  finished : Bool
deriving DecidableEq, Repr

/-- The property `Group.queue` via `get_queue` (mci.py lines 58-61):
`self._queue` resolves to the class attribute for every instance, so the
instance argument is ignored. -/
def get_queue (_self : GroupInst) (cls : GroupStatic) : List Entry :=
  cls.queue

/-- Python attribute resolution for `self._finished`, as read by the
property getter `get_finished` (mci.py lines 69-70): the instance
attribute when the instance has assigned one, else the class attribute. -/
def get_finished (instFinished : Option Bool) (cls : GroupStatic) : Bool :=
  instFinished.getD cls.finished

/-- Effect of `self.send_commands(...)` on the scheduler state: a no-op
call changes nothing; otherwise the loop's `self.queue.put(...)` calls
append the entries to the shared class-level queue, and
`self.finished = False` (line 137) runs the property setter
`set_finished`, whose `self._finished = val` creates or overwrites the
CALLER's instance attribute — the class attribute is untouched, so other
facades still read their own (or the class) value. The result is the new
class state paired with the caller's instance `_finished` attribute.
The trailing `queue.join()` (line 158) blocks but does not change the
queue contents. -/
def send_commandsState (self : GroupInst) (instFinished : Option Bool)
    (cls : GroupStatic) (now : ℚ)
    (command : Option (List Nat)) (steps : Int) (period : Option ℚ)
    (pause : Option ℚ) (whenArg : Option ℚ) (interleave : Bool)
    (byte2 : List Nat) (byte3 : List Nat) : GroupStatic × Option Bool :=
  match send_commands self.pause self.group now command steps period pause
      whenArg interleave byte2 byte3 with
  | .noop => (cls, instFinished)
  | .sent es _ => ({ cls with queue := cls.queue ++ es }, some false)
  | .error _ => (cls, instFinished)

/-! Helper lemmas, shared by the claim theorems below. -/

/-- Waking time of the worker is not before the command's time and not
before `last_command_time + selfPause`. -/
lemma qworkerWake_ge (sp : ℚ) (st : WorkerState) (ct : ℚ) :
    ct ≤ qworkerWake sp st ct ∧
      st.last_command_time + sp ≤ qworkerWake sp st ct := by
  simp only [qworkerWake]
  split_ifs with h
  · constructor
    · have := le_max_left (ct - st.now) (sp - (st.now - st.last_command_time))
      linarith
    · have := le_max_right (ct - st.now) (sp - (st.now - st.last_command_time))
      linarith
  · push_neg at h
    rw [max_le_iff] at h
    constructor <;> linarith [h.1, h.2]

/-- The drain loop always ends with an empty queue, marking every entry done. -/
lemma emptyLoop_eq (q : List Entry) : emptyLoop q = ([], q.length) := by
  induction q with
  | nil => rfl
  | cons e rest ih => simp [emptyLoop, ih]

/-- Closed form of the enqueue loop of `send_commands`. -/
lemma enqueueLoop_eq_map (sp p : ℚ) (g : String) (c : List Nat) (il : Bool) :
    ∀ (rem i : Nat) (t : ℚ),
      enqueueLoop sp p g c il i rem t =
        (List.range rem).map (fun j =>
          if il ∨ i + j = 0 then Entry.mk (t + j * p - sp) c (some g)
          else Entry.mk (t + j * p) c none) := by
  intro rem
  induction rem with
  | zero => intro i t; rfl
  | succ n ih =>
      intro i t
      rw [List.range_succ_eq_map, List.map_cons, List.map_map]
      simp only [enqueueLoop, ih (i + 1) (t + p)]
      congr 1
      · norm_num
      · apply List.map_congr_left
        intro j hj
        have h1 : ¬ (i + 1 + j = 0) := by omega
        have h2 : ¬ (i + (j + 1) = 0) := by omega
        have h3 : t + p + (j : ℚ) * p = t + ((j : ℚ) + 1) * p := by ring
        simp only [Function.comp, Nat.succ_eq_add_one, h1, h2, or_false,
          Nat.cast_add, Nat.cast_one, h3]

/-! Claim theorems. -/

/-- C3 (confirmed): the pacing computation of `send_commands` (lines
141-146) satisfies: with neither `pause` nor `period` given the resolved
delay is `self.pause`; with `period` given it is `period / steps` at the
clamped step count; without interleave no floor applies; and whenever
interleave is requested the resolved delay is at least `2 * self.pause`. -/
theorem resolvePause_pacing (selfPause p : ℚ) (steps : Int) (pa : Option ℚ) :
    (resolvePauseBase selfPause (max 1 (min 30 steps)) none none = selfPause)
    ∧ (resolvePauseBase selfPause (max 1 (min 30 steps)) pa (some p)
        = p / ((max 1 (min 30 steps) : Int) : ℚ))
    ∧ (∀ per : Option ℚ,
        resolvePause selfPause (max 1 (min 30 steps)) pa per false
          = resolvePauseBase selfPause (max 1 (min 30 steps)) pa per)
    ∧ (∀ per : Option ℚ,
        2 * selfPause ≤ resolvePause selfPause (max 1 (min 30 steps)) pa per true) := by
  refine ⟨rfl, ?_, ?_, ?_⟩
  · rcases pa with _ | pa <;> rfl
  · intro per
    simp [resolvePause]
  · intro per
    simp only [resolvePause]
    split_ifs with h
    · exact le_refl _
    · simp only [true_and] at h
      linarith [not_lt.mp h]

/-- C4 (corrected): a `send_commands` call whose `command` is `None`
returns at once with no value (mci.py lines 135-136): nothing is enqueued,
no exception is raised, and the worker never sees the call. -/
theorem send_commands_none_returns (selfPause : ℚ) (grp : String) (now : ℚ)
    (steps : Int) (period pa wh : Option ℚ) (il : Bool) (b2 b3 : List Nat) :
    send_commands selfPause grp now none steps period pa wh il b2 b3
      = SendResult.noop := rfl

/-- C4 counterexample: at a concrete call with `command = None`, the
source returns normally (the `noop` outcome) — it does not raise a
validation error, refuting the claim that an error is raised; nothing is
enqueued. -/
theorem send_commands_none_cex :
    (send_commands (1/10) "ALL" 10 none 1 none none none false [0] [85]).raisesError
        = false
    ∧ (send_commands (1/10) "ALL" 10 none 1 none none none false [0] [85]).enqueued
        = [] :=
  ⟨rfl, rfl⟩

/-- C6 (confirmed): `empty_queue(when)` sleeps until `when` when that
lies in the future (so the return-time is the maximum of now and `when`),
then removes every queued command, marking each done; it transmits
nothing (the embedding produces no send event) and leaves the queue
empty on return. -/
theorem empty_queue_drains (now : ℚ) (wh : Option ℚ) (q : List Entry) :
    empty_queue now wh q = (max now (wh.getD now), [], q.length) := by
  unfold empty_queue
  rw [emptyLoop_eq]
  rcases wh with _ | w
  · simp
  · simp only [Option.getD_some]
    rcases le_or_lt w now with h | h
    · rw [if_neg (not_lt.mpr h), max_eq_left h]
    · rw [if_pos h, max_eq_right (le_of_lt h)]

/-- C8 counterexample: two enqueued tuples with equal timestamps and
equal payloads, one carrying a group tag, the other `None`, cannot be
compared — Python raises `TypeError` on `str` versus `NoneType`, so the
priority queue's heap operation fails; the comparison is not total. -/
theorem pyCompareEntry_mixed_tag_cex :
    pyCompareEntry ⟨1, [66, 0, 85], some "ALL"⟩ ⟨1, [66, 0, 85], none⟩ = none := by
  norm_num [pyCompareEntry, pyCompareTag]

/-- C8 (corrected): the tuple comparison used by the priority queue is
defined exactly when the timestamps differ, or the payloads differ, or
the two entries agree on carrying a group tag; on equal timestamp, equal
payload and mixed tag presence it is undefined (a `TypeError`), so the
ordering is not total there. -/
theorem pyCompareEntry_defined_iff (e1 e2 : Entry) :
    (pyCompareEntry e1 e2).isSome ↔
      (e1.time ≠ e2.time ∨ e1.payload ≠ e2.payload
        ∨ e1.group.isSome = e2.group.isSome) := by
  unfold pyCompareEntry
  rcases lt_trichotomy e1.time e2.time with h | h | h
  · simp [if_pos h, ne_of_lt h]
  · rw [if_neg (by rw [h]; exact lt_irrefl _), if_neg (by rw [h]; exact lt_irrefl _)]
    by_cases hp : e1.payload = e2.payload
    · rw [if_pos hp]
      simp only [h, ne_eq, not_true_eq_false, false_or, hp, not_true_eq_false, false_or]
      rcases e1.group with _ | g1 <;> rcases e2.group with _ | g2 <;>
        simp [pyCompareTag]
    · simp [if_neg hp, hp]
  · rw [if_neg (not_lt.mpr (le_of_lt h)), if_pos h]
    simp [ne_of_gt h]

/-- C10 (confirmed): after `Group.___init___` as run by the `ColorGroup`
and `WhiteGroup` constructors, `self.group` is one of `'1'`, `'2'`,
`'3'`, `'4'`, `'ALL'` (anything else normalises to `'ALL'`), `self.pause`
is strictly positive (a non-positive argument is replaced by `0.1`), and
every `GROUP_ON`/`GROUP_OFF` dict lookup at `self.group` succeeds. -/
theorem group_init_invariant (ip : String) (port : Nat) (pause : ℚ) (g : String) :
    0 < (Group_init ip port pause g).pause
    ∧ (pause ≤ 0 → (Group_init ip port pause g).pause = 1/10)
    ∧ ((Group_init ip port pause g).group = "1"
        ∨ (Group_init ip port pause g).group = "2"
        ∨ (Group_init ip port pause g).group = "3"
        ∨ (Group_init ip port pause g).group = "4"
        ∨ (Group_init ip port pause g).group = "ALL")
    ∧ (ColorGroup_GROUP_ON (Group_init ip port pause g).group).isSome
    ∧ (ColorGroup_GROUP_OFF (Group_init ip port pause g).group).isSome
    ∧ (WhiteGroup_GROUP_ON (Group_init ip port pause g).group).isSome
    ∧ (WhiteGroup_GROUP_OFF (Group_init ip port pause g).group).isSome := by
  have hgrp : (Group_init ip port pause g).group = "1"
      ∨ (Group_init ip port pause g).group = "2"
      ∨ (Group_init ip port pause g).group = "3"
      ∨ (Group_init ip port pause g).group = "4"
      ∨ (Group_init ip port pause g).group = "ALL" := by
    simp only [Group_init, initGroup]
    split_ifs with h
    · simp only [List.mem_cons, List.mem_singleton, List.not_mem_nil, or_false] at h
      tauto
    · tauto
  refine ⟨?_, ?_, hgrp, ?_, ?_, ?_, ?_⟩
  · simp only [Group_init, initPause]
    split_ifs with h
    · norm_num
    · linarith [not_le.mp h]
  · intro h
    simp only [Group_init, initPause, if_pos h]
  all_goals
    rcases hgrp with h | h | h | h | h <;>
      rw [h] <;> rfl

/-- C10 witness: at `pause = 0` the replacement value `0.1` is taken and
is positive, and group `"7"` normalises to `"ALL"`. -/
theorem group_init_invariant_witness :
    0 < (Group_init "10.0.0.1" 8899 0 "7").pause
    ∧ (Group_init "10.0.0.1" 8899 0 "7").pause = 1/10
    ∧ (ColorGroup_GROUP_ON (Group_init "10.0.0.1" 8899 0 "7").group).isSome :=
  ⟨(group_init_invariant "10.0.0.1" 8899 0 "7").1,
   (group_init_invariant "10.0.0.1" 8899 0 "7").2.1 (by norm_num),
   (group_init_invariant "10.0.0.1" 8899 0 "7").2.2.2.1⟩

/-- C2 (confirmed): a `send_commands` call with a present payload first
clamps `steps` to `[1, 30]` and then enqueues exactly the clamped number
of tuples: step `i` carries the group tag and time `baseTime - self.pause`
when `interleave` holds or `i = 0`, and no tag at time `baseTime`
otherwise, where `baseTime` starts at `when` (or now) and grows by the
resolved pause after each enqueue. -/
theorem send_commands_enqueue (sp : ℚ) (grp : String) (now : ℚ) (c : List Nat)
    (steps : Int) (period pa wh : Option ℚ) (il : Bool) (b2 b3 : List Nat) :
    send_commands sp grp now (some c) steps period pa wh il b2 b3 =
      SendResult.sent
        ((List.range (max 1 (min 30 steps)).toNat).map (fun i : ℕ =>
          if il ∨ i = 0 then
            Entry.mk (wh.getD now + (i : ℚ) * resolvePause sp (max 1 (min 30 steps)) pa period il - sp)
              (c ++ b2 ++ b3) (some grp)
          else
            Entry.mk (wh.getD now + (i : ℚ) * resolvePause sp (max 1 (min 30 steps)) pa period il)
              (c ++ b2 ++ b3) none))
        (c ++ b2 ++ b3)
    ∧ 1 ≤ max 1 (min 30 steps) ∧ max 1 (min 30 steps) ≤ 30
    ∧ (send_commands sp grp now (some c) steps period pa wh il b2 b3).enqueued.length
        = (max 1 (min 30 steps)).toNat := by
  have hmain : send_commands sp grp now (some c) steps period pa wh il b2 b3 =
      SendResult.sent
        ((List.range (max 1 (min 30 steps)).toNat).map (fun i : ℕ =>
          if il ∨ i = 0 then
            Entry.mk (wh.getD now + (i : ℚ) * resolvePause sp (max 1 (min 30 steps)) pa period il - sp)
              (c ++ b2 ++ b3) (some grp)
          else
            Entry.mk (wh.getD now + (i : ℚ) * resolvePause sp (max 1 (min 30 steps)) pa period il)
              (c ++ b2 ++ b3) none))
        (c ++ b2 ++ b3) := by
    simp only [send_commands, enqueueLoop_eq_map]
    congr 1
    apply List.map_congr_left
    intro j hj
    simp [Nat.zero_add]
  refine ⟨hmain, le_max_left _ _, ?_, ?_⟩
  · have h1 : min 30 steps ≤ 30 := min_le_left _ _
    omega
  · rw [hmain]
    simp [SendResult.enqueued]

/-- C9 counterexample: with `self.pause = 0.1`, group `'ALL'`, current
time `10`, `steps = 1` and no `when`, the single enqueued tuple is
`(10 - 0.1, command, 'ALL')`: it carries the group tag and its scheduled
time is `9.9`, not the call time `10` — refuting "a single immediate
enqueue of the command at time now". -/
theorem send_commands_single_step_cex :
    send_commands (1/10) "ALL" 10 (some [66]) 1 none none none false [0] [85] =
      SendResult.sent [Entry.mk (99/10) [66, 0, 85] (some "ALL")] [66, 0, 85]
    ∧ (99/10 : ℚ) ≠ 10 := by
  constructor
  · norm_num [send_commands, enqueueLoop, resolvePause, resolvePauseBase]
  · norm_num

/-- C9 (corrected): calling `send_commands` with `steps = 1`, no `when`
and no interleave places exactly one tuple on the queue; it carries the
group tag (`self.group`, forcing a reselect) and is scheduled at
`now - self.pause`, not at `now`. -/
theorem send_commands_single_step (sp : ℚ) (grp : String) (now : ℚ)
    (c b2 b3 : List Nat) :
    send_commands sp grp now (some c) 1 none none none false b2 b3 =
      SendResult.sent [Entry.mk (now - sp) (c ++ b2 ++ b3) (some grp)]
        (c ++ b2 ++ b3) := by
  norm_num [send_commands, enqueueLoop, resolvePause, resolvePauseBase]

/-- C1 (confirmed): for a dequeued tuple with a concrete scheduled time,
the worker sleeps `max(cmdtime - now, self.pause - (now - last_command_time))`
when positive, so every transmission of the step (reselect included)
happens no earlier than the scheduled time and at least `self.pause`
after the previously recorded transmission time. -/
theorem qworkerStep_timing (sp : ℚ) (groupOn : String → Option (List Nat))
    (st : WorkerState) (ct : ℚ) (cmd : List Nat) (grp : Option String)
    (r : StepResult) (hp : 0 ≤ sp)
    (hr : qworkerStep sp groupOn st (some ct) cmd grp = some r) :
    ∀ s ∈ r.sends, ct ≤ s.1 ∧ st.last_command_time + sp ≤ s.1 := by
  have hw := qworkerWake_ge sp st ct
  rcases grp with _ | g
  · simp only [qworkerStep, Option.getD_some] at hr
    injection hr with hr
    subst hr
    intro s hs
    simp only [List.mem_singleton] at hs
    subst hs
    exact hw
  · simp only [qworkerStep, Option.getD_some] at hr
    rcases hog : groupOn g with _ | onbytes
    · rw [hog] at hr
      exact absurd hr (by simp)
    · rw [hog] at hr
      injection hr with hr
      subst hr
      intro s hs
      simp only [List.mem_cons, List.mem_singleton, List.not_mem_nil, or_false] at hs
      rcases hs with rfl | rfl
      · exact hw
      · show ct ≤ qworkerWake sp st ct + sp
          ∧ st.last_command_time + sp ≤ qworkerWake sp st ct + sp
        constructor <;> linarith [hw.1, hw.2]

/-- C1 witness: concrete step with `self.pause = 0.1`, clock at `10`,
last transmission recorded at `9`, scheduled time `10`, group `'ALL'`:
both transmissions happen at or after time `10 = max(10, 9 + 0.1)`. -/
theorem qworkerStep_timing_witness :
    (10 : ℚ) ≤ 10 ∧ (9 : ℚ) + 1/10 ≤ 10 :=
  qworkerStep_timing (1/10) ColorGroup_GROUP_ON ⟨10, 9⟩ 10 [66, 0, 85]
    (some "ALL")
    ⟨[(10, [66, 0, 85]), (101/10, [66, 0, 85])], ⟨101/10, 101/10⟩⟩
    (by norm_num)
    (by norm_num [qworkerStep, qworkerWake, ColorGroup_GROUP_ON])
    (10, [66, 0, 85]) (List.mem_cons_self _ _)

/-- C5 (confirmed): when the dequeued tuple carries group tag `g` (and
the `GROUP_ON` lookup succeeds), the worker first transmits the
group-select payload `GROUP_ON[g] + b"\x00" + b"\x55"` at the wake time,
sleeps `self.pause`, then transmits the command payload; the recorded
`last_command_time` equals the payload transmission time, not the
group-select time. -/
theorem qworkerStep_groupSelect (sp : ℚ) (groupOn : String → Option (List Nat))
    (st : WorkerState) (ctOpt : Option ℚ) (cmd : List Nat) (g : String)
    (onbytes : List Nat) (hg : groupOn g = some onbytes) :
    qworkerStep sp groupOn st ctOpt cmd (some g) =
      some { sends := [(qworkerWake sp st (ctOpt.getD st.now), onbytes ++ [0, 85]),
                       (qworkerWake sp st (ctOpt.getD st.now) + sp, cmd)],
             state := { now := qworkerWake sp st (ctOpt.getD st.now) + sp,
                        last_command_time := qworkerWake sp st (ctOpt.getD st.now) + sp } } := by
  simp only [qworkerStep, hg]

/-- C5 witness: concrete step at `self.pause = 0.1`, clock `10`, last
transmission `9`, no scheduled time, group `'1'`: the select bytes
`[69, 0, 85]` go out at `10`, the payload `0.1` later, and the new
`last_command_time` is the payload time `10.1`. -/
theorem qworkerStep_groupSelect_witness :
    qworkerStep (1/10) ColorGroup_GROUP_ON ⟨10, 9⟩ none [66, 0, 85] (some "1") =
      some { sends := [(qworkerWake (1/10) ⟨10, 9⟩ ((none : Option ℚ).getD 10), [69] ++ [0, 85]),
                       (qworkerWake (1/10) ⟨10, 9⟩ ((none : Option ℚ).getD 10) + 1/10, [66, 0, 85])],
             state := { now := qworkerWake (1/10) ⟨10, 9⟩ ((none : Option ℚ).getD 10) + 1/10,
                        last_command_time := qworkerWake (1/10) ⟨10, 9⟩ ((none : Option ℚ).getD 10) + 1/10 } } :=
  qworkerStep_groupSelect (1/10) ColorGroup_GROUP_ON ⟨10, 9⟩ none [66, 0, 85]
    "1" [69] rfl

/-- C7 (code_bug evidence): the queue is a class attribute of `Group`
(mci.py line 58), so two facades built for different physical endpoints
read one and the same queue: a `send_commands` through the first endpoint
leaves the entry in the queue that the second endpoint's `get_queue`
returns — endpoints are not independent. The caller's
`self.finished = False` is an instance-attribute write, so the caller
reads `False` while the second facade, which never assigned
`_finished`, still reads the class value `True` even though the shared
queue it drains from is now non-empty. -/
theorem shared_queue_across_endpoints :
    (Group_init "10.0.0.1" 8899 (1/10) "1").ip_address ≠
      (Group_init "10.0.0.2" 8899 (1/10) "2").ip_address
    ∧ get_queue (Group_init "10.0.0.2" 8899 (1/10) "2")
        (send_commandsState (Group_init "10.0.0.1" 8899 (1/10) "1") none ⟨[], 0, true⟩
          10 (some [66]) 1 none none none false [0] [85]).1 ≠ []
    ∧ get_queue (Group_init "10.0.0.2" 8899 (1/10) "2")
        (send_commandsState (Group_init "10.0.0.1" 8899 (1/10) "1") none ⟨[], 0, true⟩
          10 (some [66]) 1 none none none false [0] [85]).1
      = get_queue (Group_init "10.0.0.1" 8899 (1/10) "1")
        (send_commandsState (Group_init "10.0.0.1" 8899 (1/10) "1") none ⟨[], 0, true⟩
          10 (some [66]) 1 none none none false [0] [85]).1
    ∧ get_finished
        (send_commandsState (Group_init "10.0.0.1" 8899 (1/10) "1") none ⟨[], 0, true⟩
          10 (some [66]) 1 none none none false [0] [85]).2
        (send_commandsState (Group_init "10.0.0.1" 8899 (1/10) "1") none ⟨[], 0, true⟩
          10 (some [66]) 1 none none none false [0] [85]).1 = false
    ∧ get_finished none
        (send_commandsState (Group_init "10.0.0.1" 8899 (1/10) "1") none ⟨[], 0, true⟩
          10 (some [66]) 1 none none none false [0] [85]).1 = true := by
  refine ⟨by decide, ?_, rfl, ?_, ?_⟩
  · norm_num [get_queue, send_commandsState, send_commands, enqueueLoop,
      resolvePause, resolvePauseBase, Group_init, initPause, initGroup]
  · norm_num [get_finished, send_commandsState, send_commands, enqueueLoop,
      resolvePause, resolvePauseBase, Group_init, initPause, initGroup]
  · norm_num [get_finished, send_commandsState, send_commands, enqueueLoop,
      resolvePause, resolvePauseBase, Group_init, initPause, initGroup]

end MCI
